import Mathlib

set_option maxRecDepth 100000

/-!
Verification development for the MAA conversational appointment-booking
backend (`src/backend/server.js` and the enhanced chat variant in
`src/unnamed/part_002`).  Strings are modelled as `List Char`; the
JavaScript regular expressions used by the source are modelled as
hand-rolled matchers over character lists that follow the regexes'
greedy/lazy backtracking semantics.  External collaborators (the LLM, the
Salesforce CRM, the session store) are modelled as explicit parameters:
the LLM's reply is an input string, CRM reads are an input record list,
and the CRM `create` result is an input success flag.
-/

namespace MAA

/-- Shorthand: the character list of a string literal. -/
def strL (s : String) : List Char := s.toList

/-- ASCII digit test, matching the `\d` character class of the source's
regular expressions (JS `\d` is exactly `[0-9]`). -/
def isDigitCh (c : Char) : Bool := '0' ≤ c && c ≤ '9'

/-- Numeric value of an ASCII digit character. -/
def digitVal (c : Char) : Nat := c.toNat - '0'.toNat

/-- Whitespace test used for JS `\s` and `String.prototype.trim`
(space, tab, newline, vertical tab, form feed, carriage return; the
exotic Unicode space characters are not used by any input we model). -/
def isWsCh (c : Char) : Bool := c = ' ' || (9 ≤ c.toNat && c.toNat ≤ 13)

/-- `String.prototype.trim`: drop whitespace from both ends. -/
def trimWs (s : List Char) : List Char :=
  ((s.dropWhile isWsCh).reverse.dropWhile isWsCh).reverse

/-- `String.prototype.toLowerCase` restricted to ASCII letters (all
strings compared case-insensitively by the source are ASCII). -/
def lowerCh (c : Char) : Char :=
  if 'A' ≤ c && c ≤ 'Z' then Char.ofNat (c.toNat + 32) else c

/-- Lowercase an entire string. -/
def lowerList (s : List Char) : List Char := s.map lowerCh

/-- `String.prototype.includes`: substring containment.  `containsSub sub
hay` is true iff `sub` occurs contiguously in `hay` (the empty string is
contained in everything, as in JS). -/
def containsSub (sub : List Char) : List Char → Bool
  | [] => sub.isEmpty
  | s@(_ :: t) => sub.isPrefixOf s || containsSub sub t

/-! ### Fixed-shape regex matchers

`chompCh` and `chompDigits` consume one literal character / `n` digits
from the front of the input, so the anchored fixed-length regexes of the
source (`^\d{4}-\d{2}-\d{2}$` and the ISO-8601 timestamp shape) become
chains of chomps that must end on the empty list. -/

/-- Consume one expected literal character. -/
def chompCh (c : Char) : List Char → Option (List Char)
  | d :: r => if d = c then some r else none
  | [] => none

/-- Consume exactly `n` digit characters. -/
def chompDigits : Nat → List Char → Option (List Char)
  | 0, s => some s
  | n + 1, c :: r => if isDigitCh c then chompDigits n r else none
  | _ + 1, [] => none

/-- One atom of a fixed-shape regex: a run of `n` digits or a literal
character. -/
inductive Tok where
  | digits : Nat → Tok
  | lit : Char → Tok
deriving DecidableEq

/-- Consume one token from the front of the input. -/
def chompTok : Tok → List Char → Option (List Char)
  | .digits n, s => chompDigits n s
  | .lit c, s => chompCh c s

/-- Consume a sequence of tokens from the front of the input. -/
def chompSeq : List Tok → List Char → Option (List Char)
  | [], s => some s
  | tk :: tks, s => (chompTok tk s).bind (chompSeq tks)

/-- The token sequence of `\d{4}-\d{2}-\d{2}`. -/
def dateToks : List Tok := [.digits 4, .lit '-', .digits 2, .lit '-', .digits 2]

/-- The token sequence of the ISO-8601 timestamp shape
`\d{4}-\d{2}-\d{2}T\d{2}:\d{2}:\d{2}\.\d{3}Z` shared (up to the capture
group) by the `isoRegex` of `convertTo24HourTime` and of
`combineDateTime`. -/
def isoToks : List Tok :=
  dateToks ++ [.lit 'T', .digits 2, .lit ':', .digits 2, .lit ':', .digits 2,
    .lit '.', .digits 3, .lit 'Z']

/-- `dateRegex = /^\d{4}-\d{2}-\d{2}$/` from `combineDateTime`. -/
def matchDate (s : List Char) : Bool := chompSeq dateToks s = some []

/-- Test of the full ISO-8601 timestamp regex. -/
def matchIso (s : List Char) : Bool := chompSeq isoToks s = some []

/-- The capture group `(\d{2}:\d{2}:\d{2})` of `convertTo24HourTime`'s
`isoRegex`: characters 11–18 of a 24-character ISO timestamp. -/
def isoCapture (s : List Char) : Option (List Char) :=
  if matchIso s then some ((s.drop 11).take 8) else none

/-! ### convertTo24HourTime (server.js lines 131–172) -/

/-- The `AM`/`PM` modifier of the time regex. -/
inductive Meridiem where
  | am : Meridiem
  | pm : Meridiem
deriving DecidableEq

/-- Tail of the time regex: `\s*(AM|PM)?$`, case-insensitive.  The `\s*`
is taken maximally (a shorter take would leave a whitespace character
that neither `AM|PM` nor `$` can match, so no backtracking is possible
here). -/
def matchTail (s : List Char) : Option (Option Meridiem) :=
  let r := s.dropWhile isWsCh
  if r = [] then some none
  else if r.map lowerCh = strL "am" then some (some .am)
  else if r.map lowerCh = strL "pm" then some (some .pm)
  else none

/-- Middle of the time regex: `:?(\d{2})?` followed by the tail, with the
four greedy alternatives tried in JS backtracking order (colon+minutes,
colon only, minutes only, neither). -/
def afterHours (r : List Char) : Option (Option Nat × Option Meridiem) :=
  (do
    let r1 ← chompCh ':' r
    match r1 with
    | m1 :: m2 :: r2 =>
      if isDigitCh m1 && isDigitCh m2 then
        (matchTail r2).map (fun md => (some (10 * digitVal m1 + digitVal m2), md))
      else none
    | _ => none) <|>
  (do
    let r1 ← chompCh ':' r
    (matchTail r1).map (fun md => ((none : Option Nat), md))) <|>
  (match r with
    | m1 :: m2 :: r2 =>
      if isDigitCh m1 && isDigitCh m2 then
        (matchTail r2).map (fun md => (some (10 * digitVal m1 + digitVal m2), md))
      else none
    | _ => none) <|>
  ((matchTail r).map (fun md => ((none : Option Nat), md)))

/-- `timeRegex = /^(\d{1,2}):?(\d{2})?\s*(AM|PM)?$/i`: greedy `\d{1,2}`
tries two digits first, then backtracks to one. -/
def parseTimeChars (s : List Char) : Option (Nat × Option Nat × Option Meridiem) :=
  (match s with
    | h1 :: h2 :: r =>
      if isDigitCh h1 && isDigitCh h2 then
        (afterHours r).map (fun p => (10 * digitVal h1 + digitVal h2, p.1, p.2))
      else none
    | _ => none) <|>
  (match s with
    | h1 :: r =>
      if isDigitCh h1 then (afterHours r).map (fun p => (digitVal h1, p.1, p.2))
      else none
    | _ => none)

/-- `${n.toString().padStart(2, '0')}`.  All call sites pass `n ≤ 35`
(pre-modifier bound 23 plus at most 12), where the two-digit rendering
below agrees with `padStart`. -/
def pad2 (n : Nat) : List Char := [Nat.digitChar (n / 10 % 10), Nat.digitChar (n % 10)]

/-- The template literal `${hours}:${minutes}:00` of
`convertTo24HourTime` (with both parts padded to two digits). -/
def mkTime24 (h m : Nat) : List Char := pad2 h ++ ':' :: pad2 m ++ [':', '0', '0']

/-- The 12-hour modifier rules: `PM` and hour ≠ 12 adds 12; `AM` and
hour = 12 yields 0. -/
def applyMeridiem (md : Option Meridiem) (h : Nat) : Nat :=
  match md with
  | some .pm => if h ≠ 12 then h + 12 else h
  | some .am => if h = 12 then 0 else h
  | none => h

/-- `convertTo24HourTime` (server.js lines 131–172): empty/falsy input
returns null; an already-ISO timestamp returns its captured `HH:MM:SS`
part; otherwise the trimmed input is matched against the time regex, the
hour/minute ranges are checked *before* the AM/PM modifier is applied,
and the 24-hour string is rebuilt. -/
def convertTo24HourTime (timeStr : List Char) : Option (List Char) :=
  if timeStr.isEmpty then none
  else
    match isoCapture timeStr with
    | some cap => some cap
    | none =>
      match parseTimeChars (trimWs timeStr) with
      | none => none
      | some (h, mOpt, md) =>
        let minutes := mOpt.getD 0
        if h > 23 || minutes > 59 then none
        else some (mkTime24 (applyMeridiem md h) minutes)

/-- `combineDateTime` (server.js lines 174–202): falsy date or time
returns null; an already-ISO time is passed through unchanged (without
looking at the date); otherwise the date must match `YYYY-MM-DD` and the
time must normalize, and the two are glued as `date + 'T' + time24 +
'.000Z'`. -/
def combineDateTime (dateStr timeStr : List Char) : Option (List Char) :=
  if dateStr.isEmpty || timeStr.isEmpty then none
  else if matchIso timeStr then some timeStr
  else if !matchDate dateStr then none
  else
    match convertTo24HourTime timeStr with
    | none => none
    | some t24 => some (dateStr ++ ('T' :: (t24 ++ ['.', '0', '0', '0', 'Z'])))

/-! ### Lemmas about the fixed-shape matchers -/

lemma chompCh_append (c : Char) {s r t : List Char} (h : chompCh c s = some r) :
    chompCh c (s ++ t) = some (r ++ t) := by
  cases s with
  | nil => simp [chompCh] at h
  | cons d s' =>
    by_cases hd : d = c
    · simp [chompCh, hd] at h ⊢
      exact h
    · simp [chompCh, hd] at h

lemma chompDigits_append (n : Nat) : ∀ {s r t : List Char}, chompDigits n s = some r →
    chompDigits n (s ++ t) = some (r ++ t) := by
  induction n with
  | zero =>
    intro s r t h
    simp [chompDigits] at h ⊢
    exact h
  | succ m ih =>
    intro s r t h
    cases s with
    | nil => simp [chompDigits] at h
    | cons c s' =>
      by_cases hc : isDigitCh c
      · simp [chompDigits, hc] at h ⊢
        exact ih h
      · simp [chompDigits, hc] at h

lemma chompTok_append (tk : Tok) {s r t : List Char} (h : chompTok tk s = some r) :
    chompTok tk (s ++ t) = some (r ++ t) := by
  cases tk with
  | digits n => exact chompDigits_append n h
  | lit c => exact chompCh_append c h

lemma chompSeq_append : ∀ (tks : List Tok) {s r t : List Char},
    chompSeq tks s = some r → chompSeq tks (s ++ t) = some (r ++ t) := by
  intro tks
  induction tks with
  | nil =>
    intro s r t h
    simp [chompSeq] at h ⊢
    exact h
  | cons tk tks ih =>
    intro s r t h
    simp only [chompSeq] at h ⊢
    cases h1 : chompTok tk s with
    | none => rw [h1] at h; simp at h
    | some s1 =>
      rw [h1] at h
      rw [chompTok_append tk h1]
      simp only [Option.some_bind] at h ⊢
      exact ih h

lemma chompSeq_split : ∀ (tks1 : List Tok) (tks2 : List Tok) {s m : List Char},
    chompSeq tks1 s = some m →
    chompSeq (tks1 ++ tks2) s = chompSeq tks2 m := by
  intro tks1
  induction tks1 with
  | nil =>
    intro tks2 s m h
    simp [chompSeq] at h
    simp [h]
  | cons tk tks ih =>
    intro tks2 s m h
    simp only [chompSeq, List.cons_append] at h ⊢
    cases h1 : chompTok tk s with
    | none => rw [h1] at h; simp at h
    | some s1 =>
      rw [h1] at h
      simp only [Option.some_bind] at h ⊢
      exact ih tks2 h

lemma isDigitCh_digitChar {n : Nat} (h : n < 10) : isDigitCh (Nat.digitChar n) = true := by
  interval_cases n <;> decide

lemma chompDigits_pad2 (n : Nat) (r : List Char) : chompDigits 2 (pad2 n ++ r) = some r := by
  have h1 : isDigitCh (Nat.digitChar (n / 10 % 10)) = true :=
    isDigitCh_digitChar (Nat.mod_lt _ (by norm_num))
  have h2 : isDigitCh (Nat.digitChar (n % 10)) = true :=
    isDigitCh_digitChar (Nat.mod_lt _ (by norm_num))
  simp [pad2, chompDigits, h1, h2]

lemma matchIso_build {d : List Char} (h : matchDate d = true) (hh mm : Nat) :
    matchIso (d ++ ('T' :: (mkTime24 hh mm ++ ['.', '0', '0', '0', 'Z']))) = true := by
  have hd : chompSeq dateToks d = some [] := by simpa [matchDate] using h
  have hdX :=
    @chompSeq_append dateToks d [] ('T' :: (mkTime24 hh mm ++ ['.', '0', '0', '0', 'Z'])) hd
  simp only [List.nil_append] at hdX
  have h0 : isDigitCh '0' = true := by decide
  apply decide_eq_true
  show chompSeq
    (dateToks ++ [Tok.lit 'T', Tok.digits 2, Tok.lit ':', Tok.digits 2, Tok.lit ':',
      Tok.digits 2, Tok.lit '.', Tok.digits 3, Tok.lit 'Z'])
    (d ++ ('T' :: (mkTime24 hh mm ++ ['.', '0', '0', '0', 'Z']))) = some []
  have hsplit := chompSeq_split dateToks
    [Tok.lit 'T', Tok.digits 2, Tok.lit ':', Tok.digits 2, Tok.lit ':', Tok.digits 2,
      Tok.lit '.', Tok.digits 3, Tok.lit 'Z'] hdX
  have e1 : chompDigits 2 (mkTime24 hh mm ++ ['.', '0', '0', '0', 'Z'])
      = some (':' :: (pad2 mm ++ [':', '0', '0', '.', '0', '0', '0', 'Z'])) := by
    simpa [mkTime24, List.append_assoc] using
      chompDigits_pad2 hh (':' :: (pad2 mm ++ [':', '0', '0', '.', '0', '0', '0', 'Z']))
  have e2 := chompDigits_pad2 mm [':', '0', '0', '.', '0', '0', '0', 'Z']
  have e3 : chompDigits 2 ['0', '0', '.', '0', '0', '0', 'Z'] = some ['.', '0', '0', '0', 'Z'] := by
    decide
  have e4 : chompDigits 3 ['0', '0', '0', 'Z'] = some ['Z'] := by decide
  have htail : chompSeq
      [Tok.lit 'T', Tok.digits 2, Tok.lit ':', Tok.digits 2, Tok.lit ':', Tok.digits 2,
        Tok.lit '.', Tok.digits 3, Tok.lit 'Z']
      ('T' :: (mkTime24 hh mm ++ ['.', '0', '0', '0', 'Z'])) = some [] := by
    simp [chompSeq, chompTok, chompCh, e1, e2, e3, e4]
  exact hsplit.trans htail

/-- C3 (claim status: code bug).  The empty string, an out-of-range hour
and an out-of-range minute are all rejected by `convertTo24HourTime`, but
an hour above 12 combined with an `AM/PM` modifier is **not**: the range
check runs before the modifier is applied, so `"13:00 PM"` yields the
impossible clock time `"25:00:00"` instead of an error. -/
theorem c3_time_normalizer_evaluation :
    convertTo24HourTime [] = none ∧
    convertTo24HourTime (strL "25:00") = none ∧
    convertTo24HourTime (strL "13:61 PM") = none ∧
    convertTo24HourTime (strL "13:00 PM") = some (strL "25:00:00") := by
  decide

/-- C4 counterexample.  `combineDateTime` does produce a non-error result
for a malformed date: when the time argument is already a canonical ISO
timestamp it is passed through without ever looking at the date. -/
theorem c4_counterexample :
    combineDateTime (strL "not-a-date") (strL "2025-03-10T16:00:00.000Z") =
      some (strL "2025-03-10T16:00:00.000Z") := by
  decide

/-- C4 (amended).  `combineDateTime` fails closed — any falsy argument,
any non-`YYYY-MM-DD` date or any unnormalizable time yields `none` —
**except** for the documented pass-through: a time that is already a
canonical ISO timestamp is returned unchanged without validating the
date argument. -/
theorem c4_amended (d t : List Char) :
    (d.isEmpty = true ∨ t.isEmpty = true → combineDateTime d t = none) ∧
    (d.isEmpty = false → matchIso t = true → combineDateTime d t = some t) ∧
    (t.isEmpty = false → matchIso t = false → matchDate d = false →
      combineDateTime d t = none) ∧
    (matchIso t = false → convertTo24HourTime t = none → combineDateTime d t = none) := by
  refine ⟨?_, ?_, ?_, ?_⟩
  · intro h
    rcases h with h | h <;> simp [combineDateTime, h]
  · intro hd hiso
    have ht : t.isEmpty = false := by
      cases t with
      | nil => exact absurd hiso (by decide)
      | cons c cs => rfl
    simp [combineDateTime, hd, ht, hiso]
  · intro ht hiso hdate
    simp [combineDateTime, ht, hiso, hdate]
  · intro hiso hconv
    by_cases hd : d.isEmpty
    · simp [combineDateTime, hd]
    · by_cases ht : t.isEmpty
      · simp [combineDateTime, ht]
      · simp [combineDateTime, hd, ht, hiso, hconv]

/-- C4 witness: a malformed date together with a non-ISO, unparsable time
is rejected, by the amended theorem. -/
theorem c4_witness : combineDateTime (strL "soon") (strL "morning") = none :=
  (c4_amended (strL "soon") (strL "morning")).2.2.1 (by decide) (by decide) (by decide)

/-- C8 (confirmed).  `combineDateTime` is idempotent on its own output:
whenever it produces a canonical timestamp, feeding that timestamp back
in (with the same date) reproduces it exactly — either the time was
already ISO and is passed through again, or the built string itself
matches the ISO shape and is passed through. -/
theorem c8_combine_idempotent (d t r : List Char) (h : combineDateTime d t = some r) :
    combineDateTime d r = some r := by
  unfold combineDateTime at h
  split at h
  · exact absurd h (by simp)
  next hfalsy =>
    split at h
    next hiso =>
      have hr : t = r := by simpa using h
      subst hr
      unfold combineDateTime
      rw [if_neg hfalsy, if_pos hiso]
    next hniso =>
      split at h
      · exact absurd h (by simp)
      next hdm =>
        have hdate : matchDate d = true := by
          by_contra hc
          exact hdm (by simp [Bool.not_eq_true] at hc ⊢; exact hc)
        have hde : d.isEmpty = false := by
          by_contra hc
          simp [Bool.not_eq_false] at hc
          exact hfalsy (by simp [hc])
        have hte : t.isEmpty = false := by
          by_contra hc
          simp [Bool.not_eq_false] at hc
          exact hfalsy (by simp [hc])
        have hisot : matchIso t = false := by
          by_contra hc
          simp [Bool.not_eq_false] at hc
          exact hniso hc
        cases hconv : convertTo24HourTime t with
        | none => rw [hconv] at h; exact absurd h (by simp)
        | some t24 =>
          rw [hconv] at h
          have hr : d ++ ('T' :: (t24 ++ ['.', '0', '0', '0', 'Z'])) = r := by simpa using h
          have ht24 : ∃ hh mm, t24 = mkTime24 hh mm := by
            unfold convertTo24HourTime at hconv
            rw [if_neg (by simp [hte])] at hconv
            have hcap : isoCapture t = none := by simp [isoCapture, hisot]
            rw [hcap] at hconv
            cases hp : parseTimeChars (trimWs t) with
            | none => rw [hp] at hconv; exact absurd hconv (by simp)
            | some v =>
              obtain ⟨hh, mOpt, md⟩ := v
              rw [hp] at hconv
              simp only at hconv
              split at hconv
              · exact absurd hconv (by simp)
              · exact ⟨applyMeridiem md hh, mOpt.getD 0, by simpa using hconv.symm⟩
          obtain ⟨hh, mm, ht24⟩ := ht24
          subst ht24
          have hisor : matchIso r = true := by
            rw [← hr]
            exact matchIso_build hdate hh mm
          have hre : r.isEmpty = false := by
            rw [← hr]
            cases hd' : d with
            | nil => rw [hd'] at hde; simp at hde
            | cons c cs => simp
          unfold combineDateTime
          rw [if_neg (by simp [hde, hre]), if_pos hisor]

/-- C8 witness: a concrete round trip through the combiner. -/
theorem c8_witness :
    combineDateTime (strL "2025-03-10") (strL "4:00 PM") =
      some (strL "2025-03-10T16:00:00.000Z") ∧
    combineDateTime (strL "2025-03-10") (strL "2025-03-10T16:00:00.000Z") =
      some (strL "2025-03-10T16:00:00.000Z") :=
  ⟨by decide,
    c8_combine_idempotent (strL "2025-03-10") (strL "4:00 PM")
      (strL "2025-03-10T16:00:00.000Z") (by decide)⟩

/-! ### getMostFrequent (server.js lines 116–129, part_002 lines 298–305) -/

/-- The key set of the `counts` object built by `getMostFrequent`'s
`reduce`: `Object.keys` iterates string keys in insertion order, i.e. in
order of first occurrence in the array. -/
def dedupKeys (arr : List (List Char)) : List (List Char) :=
  arr.foldl (fun ks v => if v ∈ ks then ks else ks ++ [v]) []

/-- The final `reduce` of `getMostFrequent`:
`keys.reduce((a, b) => counts[a] > counts[b] ? a : b)` — it keeps the
accumulator only on a strictly greater count, so ties go to the later
key. -/
def pickMax (cnt : List Char → Nat) (a : List Char) (l : List (List Char)) : List Char :=
  l.foldl (fun x y => if cnt x > cnt y then x else y) a

/-- `getMostFrequent` (server.js lines 116–129): null on the empty array,
otherwise the key of `counts` with the highest count, chosen by the
strict-greater `reduce` above.  `counts[v]` equals the number of
occurrences of `v` in the array. -/
def getMostFrequent (arr : List (List Char)) : Option (List Char) :=
  if arr.isEmpty then none
  else
    match dedupKeys arr with
    | [] => none
    | k :: ks => some (pickMax (fun v => arr.count v) k ks)

lemma pickMax_split (cnt : List Char → Nat) :
    ∀ (l : List (List Char)) (a : List Char),
    ∃ l₁ l₂, a :: l = l₁ ++ pickMax cnt a l :: l₂ ∧
      (∀ x ∈ l₁, cnt x ≤ cnt (pickMax cnt a l)) ∧
      (∀ x ∈ l₂, cnt x < cnt (pickMax cnt a l)) := by
  intro l
  induction l with
  | nil =>
    intro a
    exact ⟨[], [], by simp [pickMax], by simp, by simp⟩
  | cons b t ih =>
    intro a
    by_cases hab : cnt a > cnt b
    · have hstep : pickMax cnt a (b :: t) = pickMax cnt a t := by
        simp [pickMax, List.foldl_cons, hab]
      obtain ⟨l₁, l₂, heq, h₁, h₂⟩ := ih a
      rw [hstep]
      cases l₁ with
      | nil =>
        simp only [List.nil_append] at heq
        obtain ⟨hra, hl₂⟩ := List.cons.inj heq
        refine ⟨[], b :: l₂, ?_, by simp, ?_⟩
        · rw [← hra, ← hl₂]
          rfl
        · intro x hx
          rcases List.mem_cons.mp hx with hxb | hxl
          · subst hxb
            rw [← hra]
            exact hab
          · exact h₂ x hxl
      | cons a' l₁' =>
        simp only [List.cons_append] at heq
        obtain ⟨haa, ht⟩ := List.cons.inj heq
        refine ⟨a :: b :: l₁', l₂, ?_, ?_, h₂⟩
        · rw [List.cons_append, List.cons_append, ← ht]
        · intro x hx
          have hale : cnt a ≤ cnt (pickMax cnt a t) := by
            apply h₁
            rw [haa]
            exact List.mem_cons_self a' l₁'
          rcases List.mem_cons.mp hx with hxa | hx'
          · subst hxa; exact hale
          · rcases List.mem_cons.mp hx' with hxb | hxl
            · subst hxb
              exact le_trans (le_of_lt (by omega)) hale
            · exact h₁ x (List.mem_cons_of_mem a' hxl)
    · have hstep : pickMax cnt a (b :: t) = pickMax cnt b t := by
        simp [pickMax, List.foldl_cons, hab]
      obtain ⟨l₁, l₂, heq, h₁, h₂⟩ := ih b
      rw [hstep]
      have hble : cnt b ≤ cnt (pickMax cnt b t) := by
        cases l₁ with
        | nil =>
          simp only [List.nil_append] at heq
          obtain ⟨hrb, _⟩ := List.cons.inj heq
          rw [← hrb]
        | cons b' l₁' =>
          simp only [List.cons_append] at heq
          obtain ⟨hbb, _⟩ := List.cons.inj heq
          apply h₁
          rw [hbb]
          exact List.mem_cons_self b' l₁'
      refine ⟨a :: l₁, l₂, ?_, ?_, h₂⟩
      · simp [heq]
      · intro x hx
        rcases List.mem_cons.mp hx with hxa | hxl
        · subst hxa
          exact le_trans (by omega) hble
        · exact h₁ x hxl

lemma mem_dedupKeys_aux (x : List Char) :
    ∀ (arr : List (List Char)) (acc : List (List Char)),
    x ∈ acc ∨ x ∈ arr →
    x ∈ arr.foldl (fun ks v => if v ∈ ks then ks else ks ++ [v]) acc := by
  intro arr
  induction arr with
  | nil =>
    intro acc h
    simpa using h.resolve_right (by simp)
  | cons a t ih =>
    intro acc h
    simp only [List.foldl_cons]
    by_cases ha : a ∈ acc
    · rw [if_pos ha]
      apply ih
      rcases h with h | h
      · exact Or.inl h
      · rcases List.mem_cons.mp h with hx | hx
        · subst hx; exact Or.inl ha
        · exact Or.inr hx
    · rw [if_neg ha]
      apply ih
      rcases h with h | h
      · exact Or.inl (by simp [h])
      · rcases List.mem_cons.mp h with hx | hx
        · subst hx; exact Or.inl (by simp)
        · exact Or.inr hx

lemma mem_dedupKeys {x : List Char} {arr : List (List Char)} (h : x ∈ arr) :
    x ∈ dedupKeys arr :=
  mem_dedupKeys_aux x arr [] (Or.inr h)

/-- C6 counterexample.  On a two-way tie `getMostFrequent` returns the
*last*-seen key, not the first-seen one: the `reduce` keeps the
accumulator only when its count is strictly greater. -/
theorem c6_counterexample :
    getMostFrequent [strL "Brooklyn", strL "Manhattan"] = some (strL "Manhattan") ∧
    getMostFrequent [strL "Brooklyn", strL "Manhattan"] ≠ some (strL "Brooklyn") := by
  constructor
  · decide
  · decide

/-- C6 (amended).  `getMostFrequent` is a majority vote over its input:
`["Brooklyn","Manhattan","Brooklyn"]` yields `"Brooklyn"`, the empty list
yields null, the result occurs in the input with maximal count, and on a
tie the winner is the **last**-seen key in iteration order (every other
key with the same count occurs strictly earlier in the key order). -/
theorem c6_amended :
    getMostFrequent [strL "Brooklyn", strL "Manhattan", strL "Brooklyn"]
      = some (strL "Brooklyn") ∧
    getMostFrequent [] = none ∧
    ∀ arr r, getMostFrequent arr = some r →
      r ∈ arr ∧ (∀ v ∈ arr, arr.count v ≤ arr.count r) ∧
      ∃ k₁ k₂, dedupKeys arr = k₁ ++ r :: k₂ ∧
        (∀ v ∈ k₁, arr.count v ≤ arr.count r) ∧
        (∀ v ∈ k₂, arr.count v < arr.count r) := by
  refine ⟨by decide, by decide, ?_⟩
  intro arr r h
  unfold getMostFrequent at h
  split at h
  · exact absurd h (by simp)
  next hne =>
    cases hk : dedupKeys arr with
    | nil => rw [hk] at h; exact absurd h (by simp)
    | cons k ks =>
      rw [hk] at h
      have hr : pickMax (fun v => arr.count v) k ks = r := by simpa using h
      obtain ⟨k₁, k₂, heq, h₁, h₂⟩ := pickMax_split (fun v => arr.count v) ks k
      rw [hr] at heq h₁ h₂
      have hsplit : dedupKeys arr = k₁ ++ r :: k₂ := by rw [hk]; exact heq
      have hmax : ∀ v ∈ arr, arr.count v ≤ arr.count r := by
        intro v hv
        have hvk : v ∈ dedupKeys arr := mem_dedupKeys hv
        rw [hsplit] at hvk
        rcases List.mem_append.mp hvk with hvl | hvr
        · exact h₁ v hvl
        · rcases List.mem_cons.mp hvr with hvr' | hvr'
          · subst hvr'; exact le_refl _
          · exact le_of_lt (h₂ v hvr')
      have hrmem : r ∈ arr := by
        by_contra hc
        have hcount : arr.count r = 0 := List.count_eq_zero.mpr hc
        cases arr with
        | nil => simp at hne
        | cons a t =>
          have := hmax a (by simp)
          have hapos : 0 < (a :: t).count a := by
            simp [List.count_cons]
          omega
      exact ⟨hrmem, hmax, k₁, k₂, heq, h₁, h₂⟩

/-- C6 witness: the tie-break clause of the amended theorem applied to a
concrete tied input. -/
theorem c6_witness :
    (strL "B") ∈ [strL "A", strL "B"] ∧
    ∃ k₁ k₂, dedupKeys [strL "A", strL "B"] = k₁ ++ (strL "B") :: k₂ ∧
      (∀ v ∈ k₁, List.count v [strL "A", strL "B"] ≤ List.count (strL "B") [strL "A", strL "B"]) ∧
      (∀ v ∈ k₂, List.count v [strL "A", strL "B"] < List.count (strL "B") [strL "A", strL "B"]) := by
  have h := (c6_amended.2.2 [strL "A", strL "B"] (strL "B")) (by decide)
  exact ⟨h.1, h.2.2⟩

/-! ### JSON values and `JSON.parse`

The LLM collaborators return free text that the source feeds to
`JSON.parse` (a JS builtin, modelled here by a recursive-descent parser
over the JSON grammar).  Numbers keep their raw lexeme — the source
never does arithmetic on parsed numbers, only truthiness tests. -/

/-- A parsed JSON value. -/
inductive Json where
  | null : Json
  | bool : Bool → Json
  | num : List Char → Json
  | str : List Char → Json
  | arr : List Json → Json
  | obj : List (List Char × Json) → Json

/-- JSON string escapes (`\uXXXX` is handled separately). -/
def escCh : Char → Option Char
  | '"' => some '"'
  | '\\' => some '\\'
  | '/' => some '/'
  | 'b' => some (Char.ofNat 8)
  | 'f' => some (Char.ofNat 12)
  | 'n' => some '\n'
  | 'r' => some '\r'
  | 't' => some '\t'
  | _ => none

/-- Hexadecimal digit test. -/
def isHexCh (c : Char) : Bool :=
  isDigitCh c || ('a' ≤ c && c ≤ 'f') || ('A' ≤ c && c ≤ 'F')

/-- Value of a hexadecimal digit. -/
def hexVal (c : Char) : Nat :=
  if isDigitCh c then digitVal c
  else if 'a' ≤ c && c ≤ 'f' then c.toNat - 'a'.toNat + 10
  else c.toNat - 'A'.toNat + 10

/-- Body of a JSON string after the opening quote: returns the decoded
characters and the rest of the input after the closing quote.  Unknown
escapes and raw control characters are rejected, as in `JSON.parse`. -/
def stringBody : List Char → Option (List Char × List Char)
  | [] => none
  | '"' :: r => some ([], r)
  | '\\' :: 'u' :: h1 :: h2 :: h3 :: h4 :: r =>
    if isHexCh h1 && isHexCh h2 && isHexCh h3 && isHexCh h4 then
      match stringBody r with
      | some (cs, rest) =>
        some (Char.ofNat (((hexVal h1 * 16 + hexVal h2) * 16 + hexVal h3) * 16 + hexVal h4)
          :: cs, rest)
      | none => none
    else none
  | '\\' :: e :: r =>
    if e = 'u' then none
    else
      match escCh e with
      | some c =>
        match stringBody r with
        | some (cs, rest) => some (c :: cs, rest)
        | none => none
      | none => none
  | c :: r =>
    if c.toNat < 32 then none
    else
      match stringBody r with
      | some (cs, rest) => some (c :: cs, rest)
      | none => none

/-- A nonempty digit run (returns the digits and the rest). -/
def takeDigits1 (s : List Char) : Option (List Char × List Char) :=
  let ds := s.takeWhile isDigitCh
  if ds.isEmpty then none else some (ds, s.drop ds.length)

/-- The JSON integer part: `0` or a nonzero digit followed by digits. -/
def intPart : List Char → Option (List Char × List Char)
  | '0' :: r => some (['0'], r)
  | s => takeDigits1 s

/-- The optional fraction part (if a `.` is present, digits must
follow). -/
def fracPart : List Char → Option (List Char × List Char)
  | '.' :: r =>
    match takeDigits1 r with
    | some (ds, rest) => some ('.' :: ds, rest)
    | none => none
  | s => some ([], s)

/-- The optional exponent part. -/
def expPart : List Char → Option (List Char × List Char)
  | c :: r =>
    if c = 'e' || c = 'E' then
      match r with
      | '+' :: r' =>
        match takeDigits1 r' with
        | some (ds, rest) => some (c :: '+' :: ds, rest)
        | none => none
      | '-' :: r' =>
        match takeDigits1 r' with
        | some (ds, rest) => some (c :: '-' :: ds, rest)
        | none => none
      | _ =>
        match takeDigits1 r with
        | some (ds, rest) => some (c :: ds, rest)
        | none => none
    else some ([], c :: r)
  | [] => some ([], [])

/-- A JSON number lexeme: `-?(0|[1-9][0-9]*)(\.[0-9]+)?([eE][+-]?[0-9]+)?`. -/
def numberLexeme (s : List Char) : Option (List Char × List Char) :=
  let (neg, s1) : List Char × List Char :=
    match s with
    | '-' :: r => (['-'], r)
    | _ => ([], s)
  match intPart s1 with
  | none => none
  | some (ip, s2) =>
    match fracPart s2 with
    | none => none
    | some (fp, s3) =>
      match expPart s3 with
      | none => none
      | some (ep, s4) => some (neg ++ ip ++ fp ++ ep, s4)

mutual

/-- Parse one JSON value (after skipping leading whitespace), returning
the value and the unconsumed rest.  Fuel bounds the recursion depth; the
callers supply more fuel than any input can use. -/
def parseVal : Nat → List Char → Option (Json × List Char)
  | 0, _ => none
  | f + 1, s =>
    match s.dropWhile isWsCh with
    | [] => none
    | '{' :: r => parseObjRest f r
    | '[' :: r => parseArrRest f r
    | '"' :: r =>
      match stringBody r with
      | some (cs, rest) => some (Json.str cs, rest)
      | none => none
    | 't' :: r =>
      if (strL "rue").isPrefixOf r then some (Json.bool true, r.drop 3) else none
    | 'f' :: r =>
      if (strL "alse").isPrefixOf r then some (Json.bool false, r.drop 4) else none
    | 'n' :: r =>
      if (strL "ull").isPrefixOf r then some (Json.null, r.drop 3) else none
    | s' =>
      match numberLexeme s' with
      | some (lx, rest) => some (Json.num lx, rest)
      | none => none

/-- Parse the inside of an object after the `{`. -/
def parseObjRest : Nat → List Char → Option (Json × List Char)
  | 0, _ => none
  | f + 1, r =>
    match r.dropWhile isWsCh with
    | '}' :: rest => some (Json.obj [], rest)
    | r1 =>
      match parseMembers f r1 with
      | some (ms, rest) => some (Json.obj ms, rest)
      | none => none

/-- Parse one or more `"key": value` members followed by `}`. -/
def parseMembers : Nat → List Char → Option (List (List Char × Json) × List Char)
  | 0, _ => none
  | f + 1, s =>
    match s.dropWhile isWsCh with
    | '"' :: r =>
      match stringBody r with
      | some (key, r1) =>
        match chompCh ':' (r1.dropWhile isWsCh) with
        | some r3 =>
          match parseVal f r3 with
          | some (v, r4) =>
            match r4.dropWhile isWsCh with
            | ',' :: r6 =>
              match parseMembers f r6 with
              | some (ms, rest) => some ((key, v) :: ms, rest)
              | none => none
            | '}' :: r6 => some ([(key, v)], r6)
            | _ => none
          | none => none
        | none => none
      | none => none
    | _ => none

/-- Parse the inside of an array after the `[`. -/
def parseArrRest : Nat → List Char → Option (Json × List Char)
  | 0, _ => none
  | f + 1, r =>
    match r.dropWhile isWsCh with
    | ']' :: rest => some (Json.arr [], rest)
    | r1 =>
      match parseItems f r1 with
      | some (items, rest) => some (Json.arr items, rest)
      | none => none

/-- Parse one or more array items followed by `]`. -/
def parseItems : Nat → List Char → Option (List Json × List Char)
  | 0, _ => none
  | f + 1, s =>
    match parseVal f s with
    | some (v, r) =>
      match r.dropWhile isWsCh with
      | ',' :: r2 =>
        match parseItems f r2 with
        | some (items, rest) => some (v :: items, rest)
        | none => none
      | ']' :: r2 => some ([v], r2)
      | _ => none
    | none => none

end

/-- `JSON.parse`: parse one value and require only whitespace after it.
The fuel `2·length + 4` exceeds the recursion depth possible on any
input (every two nested calls consume at least one character). -/
def jsonParse (s : List Char) : Option Json :=
  match parseVal (2 * s.length + 4) s with
  | some (v, rest) => if (rest.dropWhile isWsCh).isEmpty then some v else none
  | none => none

/-! ### extractJSON (server.js lines 71–103, part_002 lines 261–295) -/

/-- Lazy capture of `{[\s\S]*?}` followed by `\s*` + a closing fence:
scan forward from just after the opening `{`; the first `}` that is
followed (after whitespace) by three backticks ends the capture, any
other character (including an unmatched `}`) is absorbed. -/
def lazyCapture (acc : List Char) : List Char → Option (List Char)
  | [] => none
  | '}' :: r =>
    if (strL "```").isPrefixOf (r.dropWhile isWsCh) then some (acc.reverse ++ ['}'])
    else lazyCapture ('}' :: acc) r
  | c :: r => lazyCapture (c :: acc) r

/-- After the opening fence and optional `json` tag: `\s*` then the lazy
`{...}` capture. -/
def fenceBody (s : List Char) : Option (List Char) :=
  match s.dropWhile isWsCh with
  | '{' :: r =>
    match lazyCapture [] r with
    | some body => some ('{' :: body)
    | none => none
  | _ => none

/-- Try the code-block regex
```` /```(?:json)?\s*({[\s\S]*?})\s*```/ ```` at this start position:
the greedy `(?:json)?` is tried with the tag first (and if the tag is
present but the tagged attempt fails, the untagged attempt necessarily
fails on the `j`). -/
def tryFenceAt (s : List Char) : Option (List Char) :=
  if (strL "```").isPrefixOf s then
    let s0 := s.drop 3
    (if (strL "json").isPrefixOf s0 then fenceBody (s0.drop 4) else none) <|> fenceBody s0
  else none

/-- Leftmost match of the code-block regex: try each start position left
to right. -/
def findFence : List Char → Option (List Char)
  | [] => none
  | s@(_ :: t) => tryFenceAt s <|> findFence t

/-- Body of a balanced-brace block after the opening `{`, with at most
`depth` further nesting levels (the source's `jsonRegex`
`/{(?:[^{}]|{(?:[^{}]|{[^{}]*})*})*}/g` allows three levels in total).
Returns the consumed characters (including the closing `}`) and the
rest. -/
def balBody : Nat → Nat → List Char → Option (List Char × List Char)
  | 0, _, _ => none
  | _ + 1, _, [] => none
  | _ + 1, _, '}' :: r => some (['}'], r)
  | f + 1, depth, '{' :: r =>
    if depth = 0 then none
    else
      match balBody f (depth - 1) r with
      | some (inner, r1) =>
        match balBody f depth r1 with
        | some (rest, r2) => some ('{' :: (inner ++ rest), r2)
        | none => none
      | none => none
  | f + 1, depth, c :: r =>
    match balBody f depth r with
    | some (rest, r1) => some (c :: rest, r1)
    | none => none

/-- Match the balanced-brace regex at this position (must start with
`{`). -/
def balAt (s : List Char) : Option (List Char × List Char) :=
  match s with
  | '{' :: r =>
    match balBody (r.length + 1) 2 r with
    | some (b, rest) => some ('{' :: b, rest)
    | none => none
  | _ => none

/-- All (non-overlapping, leftmost) matches of the balanced-brace regex,
as produced by `str.match(jsonRegex)` with the `g` flag. -/
def scanBalanced : Nat → List Char → List (List Char)
  | 0, _ => []
  | _ + 1, [] => []
  | f + 1, s@(_ :: t) =>
    match balAt s with
    | some (m, rest) => m :: scanBalanced f rest
    | none => scanBalanced f t

/-- The first balanced-brace match that parses as JSON (the loop over
`matches` in `extractJSON`). -/
def firstParsableMatch (s : List Char) : Option (List Char) :=
  (scanBalanced (s.length + 1) s).find? (fun m => (jsonParse m).isSome)

/-- `extractJSON` (server.js lines 71–103): prefer a fenced code block
whose capture parses; otherwise the first balanced `{...}` that parses;
otherwise the literal `"\x7b\x7d"` (the two-character empty-object
string). -/
def extractJSON (s : List Char) : List Char :=
  match findFence s with
  | some c =>
    if (jsonParse c).isSome then c
    else
      match firstParsableMatch s with
      | some m => m
      | none => ['{', '}']
  | none =>
    match firstParsableMatch s with
    | some m => m
    | none => ['{', '}']

/-! ### The free-form chat turn (server.js lines 505–725)

Session bookkeeping (chat history) and the context block fed to the LLM
do not influence any property below and are elided; the LLM's reply is
the `llmOutput` parameter.  The CRM is the `crm` record list (read only
for context in this endpoint) and the outcome of `conn.create` is the
`createSuccess` flag with the fresh id `newId`. -/

/-- Zero test on a JSON number lexeme (the mantissa has no nonzero
digit), used for JS truthiness. -/
def numIsZero (lx : List Char) : Bool :=
  (lx.takeWhile (fun c => !(c = 'e' || c = 'E'))).all (fun c => !('1' ≤ c && c ≤ '9'))

/-- JS truthiness of a JSON value (`!x` in the source): null, `false`,
the empty string and numeric zero are falsy; objects and arrays are
always truthy. -/
def truthyJson : Json → Bool
  | .null => false
  | .bool b => b
  | .str s => !s.isEmpty
  | .num lx => !numIsZero lx
  | .arr _ => true
  | .obj _ => true

/-- Property lookup on a parsed JSON object.  `JSON.parse` lets a later
duplicate key overwrite an earlier one, so the *last* binding wins.
Property access on a non-object primitive yields `undefined`, modelled
as `none` (the null case, which throws in JS, is handled by the
callers). -/
def jGet : Json → List Char → Option Json
  | .obj fs, k =>
    match fs.reverse.find? (fun kv => kv.1 = k) with
    | some kv => some kv.2
    | none => none
  | _, _ => none

/-- Property assignment `obj[k] = v`: appending a binding is equivalent
under the last-wins lookup above.  Assignment to a primitive is a silent
no-op (non-strict mode). -/
def setField (j : Json) (k : List Char) (v : Json) : Json :=
  match j with
  | .obj fs => .obj (fs ++ [(k, v)])
  | other => other

/-- An `Appointment__c` record created by the main chat endpoint
(`fullAppointmentData`, lines 677–683): the reason and location are
taken verbatim from the extracted details, the timestamp is the combined
`dateTime`, and the banker is included only when valid. -/
structure ServerAppt where
  reason : Json
  timestamp : List Char
  location : Json
  banker : Option (List Char)

/-- Machine-readable error classes of the chat endpoint's responses. -/
inductive ErrCode where
  | missingParams : ErrCode
  | sfConnFailed : ErrCode
  | invalidDateTime : ErrCode
  | turnError : ErrCode
deriving DecidableEq

/-- Outcome of one `/api/chat` turn: the HTTP status, the error class
(if any), the `response` and `appointmentDetails` fields of the JSON
payload, the reported `missingFields`, whether the LLM was invoked, and
the CRM record list after the turn. -/
structure ChatResult where
  status : Nat
  errorCode : Option ErrCode
  responseText : Option Json
  details : Option Json
  missingFields : List (List Char)
  usedLLM : Bool
  records : List ServerAppt

/-- The four required slots of the free-form flow (line 663). -/
def requiredFields : List (List Char) :=
  [strL "Reason_for_Visit__c", strL "Appointment_Date__c", strL "Appointment_Time__c",
    strL "Location__c"]

/-- `requiredFields.filter(field => !appointmentDetails[field])`
(line 664). -/
def missingOf (d : Json) : List (List Char) :=
  requiredFields.filter (fun f => !truthyJson ((jGet d f).getD Json.null))

/-- The hard-coded branch-locator phrase (line 530). -/
def branchQuery : List Char :=
  strL "Find me a branch within 5 miles with 24hrs Drive-thru ATM service"

/-- The fixed canned reply for the branch-locator intent (line 534). -/
def cannedReply : List Char :=
  strL "I found a branch that meets your criteria. It\x27s located at 123 Main St, Brooklyn, NY 11201. If you would like to Naviage there here is the link: https://goo.gl/maps/12345"

/-- The parse chain of lines 650–658: direct `JSON.parse`, then
`JSON.parse(extractJSON(...))`.  The second parse always succeeds (see
`extractJSON_parses`); `Json.null` is only reachable when the raw output
is itself the literal `null`. -/
def parsedOf (llm : List Char) : Json :=
  match jsonParse llm with
  | some v => v
  | none => (jsonParse (extractJSON llm)).getD Json.null

/-- The `Banker__c` guard of line 682:
`appointmentDetails.Banker__c && appointmentDetails.Banker__c.match(/^005/)`.
Returns `none` when the guard would throw (a truthy non-string has no
`.match`), otherwise the banker id to include (if any). -/
def bankerCheck (d : Json) : Option (Option (List Char)) :=
  match jGet d (strL "Banker__c") with
  | none => some none
  | some bj =>
    if truthyJson bj then
      match bj with
      | .str bs => some (if (strL "005").isPrefixOf bs then some bs else none)
      | _ => none
    else some none

/-- One turn of `/api/chat` (server.js lines 505–725).  In order: the
parameter check (400), the canned branch-locator short-circuit (no LLM,
no CRM), the Salesforce-connection check (500), then the LLM round trip,
the parse chain, the missing-field computation, and — when nothing is
missing — the combine/create step.  Any JS exception on the way
(accessing a field of a missing `appointmentDetails`, a truthy
non-string `Banker__c`, a failed create) is caught at line 706 and
surfaces as a 500 turn error; no conflict check is performed anywhere on
this path. -/
def chatTurn (query customerType : List Char) (sfConfigured : Bool) (llmOutput : List Char)
    (crm : List ServerAppt) (createSuccess : Bool) (newId : List Char) : ChatResult :=
  if query.isEmpty || customerType.isEmpty then
    ⟨400, some .missingParams, none, none, [], false, crm⟩
  else if containsSub (lowerList branchQuery) (lowerList query) then
    ⟨200, none, some (.str cannedReply), none, [], false, crm⟩
  else if !sfConfigured then
    ⟨500, some .sfConnFailed, none, none, [], false, crm⟩
  else
    match jGet (parsedOf llmOutput) (strL "appointmentDetails") with
    | none => ⟨500, some .turnError, none, none, [], true, crm⟩
    | some det =>
      match det with
      | .null => ⟨500, some .turnError, none, none, [], true, crm⟩
      | _ =>
        if (missingOf det).isEmpty then
          match jGet det (strL "Appointment_Date__c"), jGet det (strL "Appointment_Time__c") with
          | some (.str ds), some (.str ts) =>
            match combineDateTime ds ts with
            | none => ⟨400, some .invalidDateTime, none, none, [], true, crm⟩
            | some dt =>
              match bankerCheck det with
              | none => ⟨500, some .turnError, none, none, [], true, crm⟩
              | some bk =>
                if createSuccess then
                  ⟨200, none, jGet (parsedOf llmOutput) (strL "response"),
                    some (setField (setField det (strL "Id") (.str newId))
                      (strL "Appointment_Time__c") (.str dt)), [],
                    true,
                    crm ++ [⟨(jGet det (strL "Reason_for_Visit__c")).getD Json.null, dt,
                      (jGet det (strL "Location__c")).getD Json.null, bk⟩]⟩
                else ⟨500, some .turnError, none, none, [], true, crm⟩
          | _, _ =>
            -- a truthy non-string date/time reaches String.prototype
            -- methods inside the combiner and throws; modelled as the
            -- caught 500 turn error
            ⟨500, some .turnError, none, none, [], true, crm⟩
        else
          ⟨200, none, jGet (parsedOf llmOutput) (strL "response"), some det, missingOf det,
            true, crm⟩

lemma firstParsableMatch_parses {s m : List Char} (h : firstParsableMatch s = some m) :
    (jsonParse m).isSome = true := by
  have h' : List.find? (fun m => (jsonParse m).isSome)
      (scanBalanced (s.length + 1) s) = some m := h
  simpa using List.find?_some h'

lemma extractJSON_parses (s : List Char) : (jsonParse (extractJSON s)).isSome = true := by
  have hobj : (jsonParse ['{', '}']).isSome = true := rfl
  unfold extractJSON
  cases hf : findFence s with
  | some c =>
    dsimp only
    by_cases hc : (jsonParse c).isSome = true
    · rw [if_pos hc]; exact hc
    · rw [if_neg hc]
      cases hm : firstParsableMatch s with
      | some m => exact firstParsableMatch_parses hm
      | none => exact hobj
  | none =>
    dsimp only
    cases hm : firstParsableMatch s with
    | some m => exact firstParsableMatch_parses hm
    | none => exact hobj

/-- C7 (confirmed).  Any utterance containing the hard-coded
branch-locator phrase (case-insensitively) short-circuits the turn: the
fixed canned reply is returned with null appointment details and no
missing fields, the LLM is never invoked, and the CRM record list is
untouched. -/
theorem c7_canned_intent (q ct : List Char) (sf : Bool) (llm : List Char)
    (crm : List ServerAppt) (cs : Bool) (nid : List Char)
    (hq : q.isEmpty = false) (hct : ct.isEmpty = false)
    (hmatch : containsSub (lowerList branchQuery) (lowerList q) = true) :
    chatTurn q ct sf llm crm cs nid =
      ⟨200, none, some (.str cannedReply), none, [], false, crm⟩ := by
  unfold chatTurn
  rw [if_neg (by simp [hq, hct]), if_pos hmatch]

/-- C7 witness: the branch-locator phrase itself. -/
theorem c7_witness :
    chatTurn branchQuery (strL "Guest") true (strL "whatever the model would say") [] true
      (strL "id0") = ⟨200, none, some (.str cannedReply), none, [], false, []⟩ :=
  c7_canned_intent _ _ _ _ _ _ _ (by decide) (by decide) (by decide)

/-- C9 (confirmed).  When the parse produced appointment details with no
missing required field but the date/time pair cannot be combined, the
turn answers 400 `INVALID_DATETIME` and writes nothing to the CRM. -/
theorem c9_invalid_datetime (q ct llm : List Char) (crm : List ServerAppt) (cs : Bool)
    (nid : List Char) (det : Json) (ds ts : List Char)
    (hq : q.isEmpty = false) (hct : ct.isEmpty = false)
    (hnc : containsSub (lowerList branchQuery) (lowerList q) = false)
    (hdet : jGet (parsedOf llm) (strL "appointmentDetails") = some det)
    (hmiss : missingOf det = [])
    (hdate : jGet det (strL "Appointment_Date__c") = some (.str ds))
    (htime : jGet det (strL "Appointment_Time__c") = some (.str ts))
    (hcomb : combineDateTime ds ts = none) :
    chatTurn q ct true llm crm cs nid =
      ⟨400, some .invalidDateTime, none, none, [], true, crm⟩ := by
  unfold chatTurn
  rw [if_neg (by simp [hq, hct]), if_neg (by simp [hnc]), if_neg (by simp)]
  rw [hdet]
  cases det with
  | null => simp [jGet] at hdate
  | bool b => simp [jGet] at hdate
  | num lx => simp [jGet] at hdate
  | str s' => simp [jGet] at hdate
  | arr items => simp [jGet] at hdate
  | obj fs => simp [hmiss, hdate, htime, hcomb]

/-- The LLM reply used by the C9 witness: all four fields filled but the
date is the (uncombinable) word `tomorrow`. -/
def llmC9 : List Char :=
  strL "\x7b\"response\":\"ok\",\"appointmentDetails\":\x7b\"Reason_for_Visit__c\":\"loan\",\"Appointment_Date__c\":\"tomorrow\",\"Appointment_Time__c\":\"2 PM\",\"Location__c\":\"Brooklyn\"\x7d\x7d"

/-- The parsed details object of `llmC9`. -/
def detC9 : Json :=
  Json.obj [(strL "Reason_for_Visit__c", .str (strL "loan")),
    (strL "Appointment_Date__c", .str (strL "tomorrow")),
    (strL "Appointment_Time__c", .str (strL "2 PM")),
    (strL "Location__c", .str (strL "Brooklyn"))]

/-- C9 witness: a concrete turn with an uncombinable date. -/
theorem c9_witness :
    chatTurn (strL "book a loan visit") (strL "Guest") true llmC9 [] true (strL "id2") =
      ⟨400, some .invalidDateTime, none, none, [], true, []⟩ :=
  c9_invalid_datetime _ _ _ _ _ _ detC9 (strL "tomorrow") (strL "2 PM")
    (by decide) (by decide) (by decide) (by rfl) (by rfl) (by rfl) (by rfl) (by rfl)

/-- The LLM reply used by the C1 counterexample: a complete slot set for
2025-03-10 at 2 PM in Brooklyn. -/
def llmC1 : List Char :=
  strL "\x7b\"response\":\"Booked\",\"appointmentDetails\":\x7b\"Reason_for_Visit__c\":\"Loan Consultation\",\"Appointment_Date__c\":\"2025-03-10\",\"Appointment_Time__c\":\"2 PM\",\"Location__c\":\"Brooklyn\"\x7d\x7d"

/-- A pre-existing CRM record occupying exactly the timestamp+location
that `llmC1` books. -/
def conflictingAppt : ServerAppt :=
  ⟨Json.str (strL "Checking"), strL "2025-03-10T14:00:00.000Z", Json.str (strL "Brooklyn"), none⟩

/-- C1 counterexample.  With a CRM store already holding an appointment
at the same timestamp and location, the main chat endpoint still answers
200 with no error and creates a second record: no conflict check runs on
this path, so no `ConflictError` (and no suggested alternative) is ever
returned. -/
theorem c1_counterexample :
    (chatTurn (strL "book a loan consultation") (strL "Regular") true llmC1
      [conflictingAppt] true (strL "newid")).status = 200 ∧
    (chatTurn (strL "book a loan consultation") (strL "Regular") true llmC1
      [conflictingAppt] true (strL "newid")).errorCode = none ∧
    (chatTurn (strL "book a loan consultation") (strL "Regular") true llmC1
      [conflictingAppt] true (strL "newid")).records.length = 2 := by
  refine ⟨?_, ?_, ?_⟩ <;> rfl

/-- C5 counterexample.  On total parse failure the turn does **not**
degrade to an empty-details success response: the extracted empty object
has no `appointmentDetails`, so computing the missing fields throws and
the turn ends as a caught 500 error. -/
theorem c5_counterexample :
    chatTurn (strL "hello") (strL "Guest") true (strL "I cannot produce structured output.")
      [] true (strL "id1") = ⟨500, some .turnError, none, none, [], true, []⟩ ∧
    (chatTurn (strL "hello") (strL "Guest") true (strL "I cannot produce structured output.")
      [] true (strL "id1")).status ≠ 200 := by
  refine ⟨rfl, ?_⟩
  decide

/-- C5 (amended).  The extraction chain falls back in order — direct
parse, fenced code block whose capture parses, first balanced `{...}`
that parses, and finally the literal empty object, which always parses —
but in the total-failure case the empty object carries no
`appointmentDetails`, so the turn ends as a caught 500 error response
(zero CRM writes), not as an empty-details success. -/
theorem c5_amended :
    (∀ s, (jsonParse (extractJSON s)).isSome = true) ∧
    (∀ s v, jsonParse s = some v → parsedOf s = v) ∧
    (∀ s c, findFence s = some c → (jsonParse c).isSome = true → extractJSON s = c) ∧
    (∀ s m, (∀ c, findFence s = some c → (jsonParse c).isSome = false) →
      firstParsableMatch s = some m → extractJSON s = m) ∧
    (∀ s, (∀ c, findFence s = some c → (jsonParse c).isSome = false) →
      firstParsableMatch s = none → extractJSON s = ['{', '}']) ∧
    (∀ q ct llm crm cs nid, (q : List Char).isEmpty = false → (ct : List Char).isEmpty = false →
      containsSub (lowerList branchQuery) (lowerList q) = false →
      jGet (parsedOf llm) (strL "appointmentDetails") = none →
      chatTurn q ct true llm crm cs nid = ⟨500, some .turnError, none, none, [], true, crm⟩) := by
  refine ⟨extractJSON_parses, ?_, ?_, ?_, ?_, ?_⟩
  · intro s v h
    simp [parsedOf, h]
  · intro s c hf hc
    simp [extractJSON, hf, hc]
  · intro s m hf hm
    unfold extractJSON
    cases hfe : findFence s with
    | some c =>
      dsimp only
      rw [if_neg (by simp [hf c hfe]), hm]
    | none =>
      dsimp only
      rw [hm]
  · intro s hf hm
    unfold extractJSON
    cases hfe : findFence s with
    | some c =>
      dsimp only
      rw [if_neg (by simp [hf c hfe]), hm]
    | none =>
      dsimp only
      rw [hm]
  · intro q ct llm crm cs nid hq hct hnc hdet
    unfold chatTurn
    rw [if_neg (by simp [hq, hct]), if_neg (by simp [hnc]), if_neg (by simp)]
    rw [hdet]

/-- C5 witness: the turn-level clause applied to a concrete unparseable
reply. -/
theorem c5_witness :
    chatTurn (strL "hi") (strL "Guest") true (strL "sorry, no data") [] true (strL "id3") =
      ⟨500, some .turnError, none, none, [], true, []⟩ :=
  c5_amended.2.2.2.2.2 _ _ _ _ _ _ (by decide) (by decide) (by decide) (by rfl)

/-! ### The guided flow (server.js lines 346–503)

The endpoint reads `guidedStep` from the request body and switches on
it: each step stores the raw `query` into the corresponding slot of
`req.session.guidedFlow` and picks a step-specific system instruction.
Nothing about the step is read from (or written to) the session. -/

/-- Which branch of the `switch (guidedStep)` was taken (i.e. which
system instruction was issued to the LLM). -/
inductive GuidedInstr where
  | reasonSel : GuidedInstr
  | timeSel : GuidedInstr
  | locSel : GuidedInstr
  | confirm : GuidedInstr
  | unrecognized : GuidedInstr
deriving DecidableEq

/-- The session-stored `guidedFlow` record `{reason, date, time,
location}` (line 107). -/
structure FlowData where
  reason : Option (List Char)
  date : Option (List Char)
  time : Option (List Char)
  location : Option (List Char)
deriving DecidableEq

/-- The all-null slot set used at initialization and after a successful
booking (lines 107–112 and 481). -/
def emptyFlow : FlowData := ⟨none, none, none, none⟩

/-- The `switch (guidedStep)` of lines 365–409: the transition is chosen
by the request's `guidedStep` string and mutates at most one slot. -/
def guidedTransition (guidedStep query : List Char) (fd : FlowData) : FlowData × GuidedInstr :=
  if guidedStep = strL "reasonSelection" then
    (⟨some query, fd.date, fd.time, fd.location⟩, .reasonSel)
  else if guidedStep = strL "timeSelection" then
    (⟨fd.reason, fd.date, some query, fd.location⟩, .timeSel)
  else if guidedStep = strL "locationSelection" then
    (⟨fd.reason, fd.date, fd.time, some query⟩, .locSel)
  else if guidedStep = strL "confirmation" then (fd, .confirm)
  else (fd, .unrecognized)

/-- Null test on a parsed JSON value (accessing a property of `null`
throws in JS). -/
def isNullJson : Json → Bool
  | .null => true
  | _ => false

/-- JS falsiness of a nullable string slot (`!dateTime`, line 453). -/
def jsFalsyOptStr : Option (List Char) → Bool
  | none => true
  | some s => s.isEmpty

/-- A nullable string slot as the JSON value sent to the CRM. -/
def optStrJson : Option (List Char) → Json
  | none => .null
  | some s => .str s

/-- The `appointmentDetails` object built on a successful guided booking
(lines 469–474). -/
def guidedDetails (newId : List Char) (fd : FlowData) (dt : List Char) : Json :=
  .obj [(strL "Id", .str newId), (strL "Reason_for_Visit__c", optStrJson fd.reason),
    (strL "Appointment_Time__c", .str dt), (strL "Location__c", optStrJson fd.location)]

/-- Outcome of one `/api/guidedFlow` turn: HTTP status, the session slot
set after the turn, the record data sent to the CRM create call (if one
was attempted) as `(Reason_for_Visit__c, Appointment_Time__c,
Location__c)`, whether a record was persisted, and the
`appointmentDetails`/`response` fields of the payload.  The display-only
`timeSlots` formatting is elided. -/
structure GuidedResult where
  status : Nat
  flowData : FlowData
  attempted : Option (Option (List Char) × List Char × Option (List Char))
  persisted : Bool
  details : Option Json
  response : Option Json

/-- One turn of `/api/guidedFlow` (lines 346–503).  Parameter check
(400); transition chosen by the request's `guidedStep`; LLM round trip
and parse chain (`parsed.timeSlots` on a parsed `null` throws → caught
500); then, only for `guidedStep = "confirmation"`: the stored time slot
must be truthy (else throw → 500), the Salesforce connection must be
configured, and the record `{reason, time, location}` is sent verbatim —
reason/location even when null, the time string never validated, the
stored date never read.  On success the slot set is reset to all-null;
on a failed create the error is caught before the reset line. -/
def guidedFlowTurn (query customerType guidedStep : List Char) (fd : FlowData)
    (sfConfigured : Bool) (llmOutput : List Char) (createSuccess : Bool)
    (newId : List Char) : GuidedResult :=
  if query.isEmpty || customerType.isEmpty || guidedStep.isEmpty then
    ⟨400, fd, none, false, none, none⟩
  else
    let fd1 := (guidedTransition guidedStep query fd).1
    if isNullJson (parsedOf llmOutput) then ⟨500, fd1, none, false, none, none⟩
    else if guidedStep = strL "confirmation" then
      if jsFalsyOptStr fd1.time then ⟨500, fd1, none, false, none, none⟩
      else if !sfConfigured then ⟨500, fd1, none, false, none, none⟩
      else if createSuccess then
        ⟨200, emptyFlow, some (fd1.reason, fd1.time.getD [], fd1.location), true,
          some (guidedDetails newId fd1 (fd1.time.getD [])),
          jGet (parsedOf llmOutput) (strL "response")⟩
      else
        ⟨500, fd1, some (fd1.reason, fd1.time.getD [], fd1.location), false, none, none⟩
    else
      ⟨200, fd1, none, false, jGet (parsedOf llmOutput) (strL "appointmentDetails"),
        jGet (parsedOf llmOutput) (strL "response")⟩

lemma guidedTransition_confirmation (q : List Char) (fd : FlowData) :
    guidedTransition (strL "confirmation") q fd = (fd, GuidedInstr.confirm) := rfl

/-- C2 counterexample.  Two requests arriving with the *same* session
slot set but different `guidedStep` fields in the request payload take
different transitions — the step is read from the request, not from
session-scoped state. -/
theorem c2_counterexample :
    (guidedTransition (strL "reasonSelection") (strL "Loan") emptyFlow).2 ≠
      (guidedTransition (strL "timeSelection") (strL "Loan") emptyFlow).2 := by
  decide

/-- C2 (amended).  The transition taken by a guided turn is selected
entirely by the `guidedStep` field of the request payload: it is never
inferred from the free-text query nor from the session slot set — two
requests with the same `guidedStep` take the same transition regardless
of query text and session contents. -/
theorem c2_request_step_determines_transition (step q1 q2 : List Char)
    (fd1 fd2 : FlowData) :
    (guidedTransition step q1 fd1).2 = (guidedTransition step q2 fd2).2 := by
  unfold guidedTransition
  split_ifs <;> rfl

/-- C10 (confirmed).  In the guided confirmation step the only checked
precondition is that the stored time slot is truthy: with a falsy time
the turn 500s and the slot set is untouched; with a truthy time the CRM
create is attempted with the stored reason/time/location passed verbatim
(reason and location even when null, the time string of any shape); on
success the slot set resets to all-null, on a failed create it is left
unchanged; and the stored date slot influences none of the status,
attempted record, persistence or details. -/
theorem c10_confirmation_behavior (q ct llm : List Char) (fd : FlowData) (cs : Bool)
    (nid : List Char)
    (hq : q.isEmpty = false) (hct : ct.isEmpty = false)
    (hp : isNullJson (parsedOf llm) = false) :
    (jsFalsyOptStr fd.time = true →
      guidedFlowTurn q ct (strL "confirmation") fd true llm cs nid =
        ⟨500, fd, none, false, none, none⟩) ∧
    (jsFalsyOptStr fd.time = false →
      (cs = true →
        guidedFlowTurn q ct (strL "confirmation") fd true llm cs nid =
          ⟨200, emptyFlow, some (fd.reason, fd.time.getD [], fd.location), true,
            some (guidedDetails nid fd (fd.time.getD [])),
            jGet (parsedOf llm) (strL "response")⟩) ∧
      (cs = false →
        guidedFlowTurn q ct (strL "confirmation") fd true llm cs nid =
          ⟨500, fd, some (fd.reason, fd.time.getD [], fd.location), false, none, none⟩)) ∧
    (∀ d1 d2 : Option (List Char),
      (guidedFlowTurn q ct (strL "confirmation") ⟨fd.reason, d1, fd.time, fd.location⟩
          true llm cs nid).status =
        (guidedFlowTurn q ct (strL "confirmation") ⟨fd.reason, d2, fd.time, fd.location⟩
          true llm cs nid).status ∧
      (guidedFlowTurn q ct (strL "confirmation") ⟨fd.reason, d1, fd.time, fd.location⟩
          true llm cs nid).attempted =
        (guidedFlowTurn q ct (strL "confirmation") ⟨fd.reason, d2, fd.time, fd.location⟩
          true llm cs nid).attempted ∧
      (guidedFlowTurn q ct (strL "confirmation") ⟨fd.reason, d1, fd.time, fd.location⟩
          true llm cs nid).persisted =
        (guidedFlowTurn q ct (strL "confirmation") ⟨fd.reason, d2, fd.time, fd.location⟩
          true llm cs nid).persisted ∧
      (guidedFlowTurn q ct (strL "confirmation") ⟨fd.reason, d1, fd.time, fd.location⟩
          true llm cs nid).details =
        (guidedFlowTurn q ct (strL "confirmation") ⟨fd.reason, d2, fd.time, fd.location⟩
          true llm cs nid).details) := by
  have hse : (strL "confirmation").isEmpty = false := rfl
  have hturn : ∀ (fd' : FlowData),
      guidedFlowTurn q ct (strL "confirmation") fd' true llm cs nid =
        if jsFalsyOptStr fd'.time then ⟨500, fd', none, false, none, none⟩
        else if cs then
          ⟨200, emptyFlow, some (fd'.reason, fd'.time.getD [], fd'.location), true,
            some (guidedDetails nid fd' (fd'.time.getD [])),
            jGet (parsedOf llm) (strL "response")⟩
        else
          ⟨500, fd', some (fd'.reason, fd'.time.getD [], fd'.location), false, none, none⟩ := by
    intro fd'
    unfold guidedFlowTurn
    rw [if_neg (by simp [hq, hct, hse]), guidedTransition_confirmation]
    dsimp only
    rw [if_neg (by simp [hp]), if_pos rfl]
    by_cases ht : jsFalsyOptStr fd'.time = true
    · simp [ht]
    · simp only [Bool.not_eq_true] at ht
      cases cs <;> simp [ht]
  refine ⟨?_, ?_, ?_⟩
  · intro ht
    rw [hturn fd, if_pos ht]
  · intro ht
    constructor
    · intro hcs
      subst hcs
      rw [hturn fd, if_neg (by simp [ht]), if_pos rfl]
    · intro hcs
      subst hcs
      rw [hturn fd, if_neg (by simp [ht]), if_neg (by simp)]
  · intro d1 d2
    rw [hturn ⟨fd.reason, d1, fd.time, fd.location⟩, hturn ⟨fd.reason, d2, fd.time, fd.location⟩]
    by_cases ht : jsFalsyOptStr fd.time = true
    · simp [ht]
    · simp only [Bool.not_eq_true] at ht
      cases cs <;> simp [ht, guidedDetails]

/-- C10 witness: a fully-stored slot set confirmed with a successful
create. -/
theorem c10_witness :
    guidedFlowTurn (strL "yes please") (strL "Regular") (strL "confirmation")
      ⟨some (strL "Loan"), none, some (strL "2025-03-10T16:00:00.000Z"), some (strL "Brooklyn")⟩
      true (strL "\x7b\"response\":\"Booking now\"\x7d") true (strL "idG") =
      ⟨200, emptyFlow,
        some (some (strL "Loan"), strL "2025-03-10T16:00:00.000Z", some (strL "Brooklyn")),
        true,
        some (guidedDetails (strL "idG")
          ⟨some (strL "Loan"), none, some (strL "2025-03-10T16:00:00.000Z"),
            some (strL "Brooklyn")⟩ (strL "2025-03-10T16:00:00.000Z")),
        some (.str (strL "Booking now"))⟩ :=
  ((c10_confirmation_behavior (strL "yes please") (strL "Regular")
      (strL "\x7b\"response\":\"Booking now\"\x7d")
      ⟨some (strL "Loan"), none, some (strL "2025-03-10T16:00:00.000Z"), some (strL "Brooklyn")⟩
      true (strL "idG") (by decide) (by decide) (by rfl)).2.1 (by decide)).1 rfl

/-! ### The enhanced chat variant (src/unnamed/part_002)

This variant of `/api/chat` does perform an availability check before
creating: `checkAppointmentAvailability` consults the `Available_Slot__c`
table first and falls back to looking for an existing appointment at the
same date+time+location; on an unavailable slot the turn adds
`slot_availability` to the missing fields and attaches
`getSuggestedAlternatives` (which may well be empty).  CRM appointments
are modelled as their JSON field maps. -/

/-- An `Available_Slot__c` record. -/
structure SlotRec where
  date : List Char
  time : List Char
  branch : List Char
  isAvailable : Bool
deriving DecidableEq

/-- The CRM state seen by the enhanced endpoint. -/
structure EnhCrm where
  slots : List SlotRec
  appts : List Json

/-- The `Available_Slot__c` lookup filter (`Date__c = d AND Time__c = t
AND Branch__c = loc`). -/
def slotMatches (d t loc : List Char) (s : SlotRec) : Bool :=
  s.date == d && s.time == t && s.branch == loc

/-- The `Appointment__c` lookup filter (`Appointment_Date__c = d AND
Appointment_Time__c = t AND Location__c = loc`). -/
def apptMatches (d t loc : List Char) (a : Json) : Bool :=
  (match jGet a (strL "Appointment_Date__c") with
    | some (.str x) => x == d
    | _ => false) &&
  (match jGet a (strL "Appointment_Time__c") with
    | some (.str x) => x == t
    | _ => false) &&
  (match jGet a (strL "Location__c") with
    | some (.str x) => x == loc
    | _ => false)

/-- `checkAppointmentAvailability` (part_002 lines 308–336): if a slot
record exists its flag decides; otherwise the slot is available iff no
appointment occupies it.  (The catch-all "available on query error" arm
models no failing collaborator here.) -/
def checkAppointmentAvailability (crm : EnhCrm) (d t loc : List Char) : Bool :=
  match crm.slots.find? (slotMatches d t loc) with
  | some s => s.isAvailable
  | none => (crm.appts.filter (apptMatches d t loc)).isEmpty

/-- `updateSlotAvailability` (part_002 lines 339–368): update the first
matching slot record, or create one. -/
def updateSlotAvailability : List SlotRec → List Char → List Char → List Char → Bool →
    List SlotRec
  | [], d, t, loc, avail => [⟨d, t, loc, avail⟩]
  | s :: rest, d, t, loc, avail =>
    if slotMatches d t loc s then ⟨s.date, s.time, s.branch, avail⟩ :: rest
    else s :: updateSlotAvailability rest d t loc avail

/-- Parse a `YYYY-MM-DD` string into `(year, month, day)`.  (JS
`new Date(...)` accepts this shape; other shapes make the alternative
computation throw, which the source catches by returning `[]`.) -/
def parseDateTriple (s : List Char) : Option (Nat × Nat × Nat) :=
  match s with
  | [y1, y2, y3, y4, '-', m1, m2, '-', d1, d2] =>
    if isDigitCh y1 && isDigitCh y2 && isDigitCh y3 && isDigitCh y4 && isDigitCh m1 &&
        isDigitCh m2 && isDigitCh d1 && isDigitCh d2 then
      some (((digitVal y1 * 10 + digitVal y2) * 10 + digitVal y3) * 10 + digitVal y4,
        digitVal m1 * 10 + digitVal m2, digitVal d1 * 10 + digitVal d2)
    else none
  | _ => none

/-- Gregorian leap-year rule. -/
def isLeap (y : Nat) : Bool := (y % 4 = 0 && !(y % 100 = 0)) || y % 400 = 0

/-- Days in a month. -/
def daysInMonth (y m : Nat) : Nat :=
  if m = 2 then (if isLeap y then 29 else 28)
  else if m = 4 || m = 6 || m = 9 || m = 11 then 30
  else 31

/-- The calendar day after (`setDate(getDate() + 1)`). -/
def nextDay : Nat × Nat × Nat → Nat × Nat × Nat
  | (y, m, d) =>
    if d < daysInMonth y m then (y, m, d + 1)
    else if m < 12 then (y, m + 1, 1)
    else (y + 1, 1, 1)

/-- The calendar day before (`setDate(getDate() - 1)`). -/
def prevDay : Nat × Nat × Nat → Nat × Nat × Nat
  | (y, m, d) =>
    if d > 1 then (y, m, d - 1)
    else if m > 1 then (y, m - 1, daysInMonth y (m - 1))
    else (y - 1, 12, 31)

/-- Four-digit year rendering. -/
def pad4 (n : Nat) : List Char :=
  [Nat.digitChar (n / 1000 % 10), Nat.digitChar (n / 100 % 10), Nat.digitChar (n / 10 % 10),
    Nat.digitChar (n % 10)]

/-- Render a `(year, month, day)` back to `YYYY-MM-DD`
(`toISOString().split('T')[0]`). -/
def tripleToDate : Nat × Nat × Nat → List Char
  | (y, m, d) => pad4 y ++ '-' :: pad2 m ++ '-' :: pad2 d

/-- Lexicographic strict order on character lists (SOQL comparison of
`Date__c`/`Time__c` values in ISO form is chronological, i.e.
lexicographic). -/
def ltL : List Char → List Char → Bool
  | [], [] => false
  | [], _ :: _ => true
  | _ :: _, [] => false
  | a :: s, b :: t => if a < b then true else if b < a then false else ltL s t

/-- Lexicographic `≤`. -/
def leL (a b : List Char) : Bool := !ltL b a

/-- The `ORDER BY Date__c ASC, Time__c ASC` key. -/
def slotLe (a b : SlotRec) : Bool :=
  ltL a.date b.date || (a.date == b.date && leL a.time b.time)

/-- Insertion step of the sort. -/
def insertSlot (x : SlotRec) : List SlotRec → List SlotRec
  | [] => [x]
  | y :: t => if slotLe x y then x :: y :: t else y :: insertSlot x t

/-- Sort slot records by date then time. -/
def sortSlots : List SlotRec → List SlotRec
  | [] => []
  | x :: t => insertSlot x (sortSlots t)

/-- `getSuggestedAlternatives` (part_002 lines 371–411): available slots
from one day before to three days after the requested date, first at the
same branch, otherwise at any branch, ordered by date and time, limited
to five; an unparsable date (which makes the JS date arithmetic throw)
or the absence of any available slot yields the empty list. -/
def getSuggestedAlternatives (crm : EnhCrm) (dateStr loc : List Char) : List SlotRec :=
  match parseDateTriple dateStr with
  | none => []
  | some ymd =>
    let st := tripleToDate (prevDay ymd)
    let en := tripleToDate (nextDay (nextDay (nextDay ymd)))
    let same := (sortSlots (crm.slots.filter (fun s =>
      leL st s.date && leL s.date en && s.branch == loc && s.isAvailable))).take 5
    if !same.isEmpty then same
    else (sortSlots (crm.slots.filter (fun s =>
      leL st s.date && leL s.date en && s.isAvailable))).take 5

/-- A slot record rendered back to the JSON shape returned to the
caller. -/
def slotToJson (s : SlotRec) : Json :=
  .obj [(strL "Date__c", .str s.date), (strL "Time__c", .str s.time),
    (strL "Branch__c", .str s.branch)]

/-- The five required fields of the enhanced endpoint (part_002 lines
177–183; `Customer_Type__c` is required here too). -/
def requiredFields5 : List (List Char) :=
  [strL "Reason_for_Visit__c", strL "Appointment_Date__c", strL "Appointment_Time__c",
    strL "Location__c", strL "Customer_Type__c"]

/-- The missing-field filter of the enhanced endpoint. -/
def missingOf5 (d : Json) : List (List Char) :=
  requiredFields5.filter (fun f => !truthyJson ((jGet d f).getD Json.null))

/-- Outcome of the enhanced endpoint's commit stage. -/
structure EnhOutcome where
  status : Nat
  details : Json
  missing : List (List Char)
  created : Option Json
  crmAfter : EnhCrm

/-- The commit stage of the enhanced `/api/chat` (part_002 lines
185–246): with no missing field, check availability; when available,
create `{...details, Customer_Name__c}` and mark the slot taken (a
failed create is silently ignored here — no id, no slot update); when
unavailable, push `slot_availability` onto the missing fields and attach
the suggested alternatives, creating nothing. -/
def enhancedCommit (crm : EnhCrm) (details : Json) (username : List Char)
    (createSuccess : Bool) (newId : List Char) : EnhOutcome :=
  if (missingOf5 details).isEmpty then
    match jGet details (strL "Appointment_Date__c"), jGet details (strL "Appointment_Time__c"),
        jGet details (strL "Location__c") with
    | some (.str d), some (.str t), some (.str loc) =>
      if checkAppointmentAvailability crm d t loc then
        if createSuccess then
          ⟨200, setField details (strL "Id") (.str newId), missingOf5 details,
            some (setField details (strL "Customer_Name__c") (.str username)),
            ⟨updateSlotAvailability crm.slots d t loc false,
              crm.appts ++ [setField details (strL "Customer_Name__c") (.str username)]⟩⟩
        else ⟨200, details, missingOf5 details, none, crm⟩
      else
        ⟨200, setField details (strL "suggested_alternatives")
            (.arr ((getSuggestedAlternatives crm d loc).map slotToJson)),
          missingOf5 details ++ [strL "slot_availability"], none, crm⟩
    | _, _, _ =>
      -- non-string field values are outside the LLM contract; modelled
      -- as the caught 500 error
      ⟨500, details, missingOf5 details, none, crm⟩
  else ⟨200, details, missingOf5 details, none, crm⟩

/-- C1 (amended).  In the enhanced chat variant, when the required
fields are filled and the CRM already holds an appointment at the same
date+time+location (and no `Available_Slot__c` record overrides the
check), the booking is refused: no record is created, the CRM is
untouched, `slot_availability` is reported among the missing fields, and
the response carries the suggested-alternatives list — which is empty
whenever no available slot exists at all.  (The primary `/api/chat`
endpoint performs no conflict check and books anyway — see the
counterexample.) -/
theorem c1_amended_enhanced_commit (crm : EnhCrm) (details : Json) (user nid : List Char)
    (cs : Bool) (d t loc : List Char)
    (hmiss : missingOf5 details = [])
    (hd : jGet details (strL "Appointment_Date__c") = some (.str d))
    (ht : jGet details (strL "Appointment_Time__c") = some (.str t))
    (hl : jGet details (strL "Location__c") = some (.str loc))
    (hslot : crm.slots.find? (slotMatches d t loc) = none)
    (happt : ∃ a ∈ crm.appts, apptMatches d t loc a = true) :
    enhancedCommit crm details user cs nid =
      ⟨200, setField details (strL "suggested_alternatives")
          (.arr ((getSuggestedAlternatives crm d loc).map slotToJson)),
        [strL "slot_availability"], none, crm⟩ ∧
    ((∀ s ∈ crm.slots, s.isAvailable = false) → getSuggestedAlternatives crm d loc = []) := by
  constructor
  · have hfil : crm.appts.filter (apptMatches d t loc) ≠ [] := by
      intro hc
      obtain ⟨a, ha, hpa⟩ := happt
      have := List.filter_eq_nil_iff.mp hc a ha
      simp [hpa] at this
    have havail : checkAppointmentAvailability crm d t loc = false := by
      unfold checkAppointmentAvailability
      rw [hslot]
      cases hfe : crm.appts.filter (apptMatches d t loc) with
      | nil => exact absurd hfe hfil
      | cons x xs => rfl
    unfold enhancedCommit
    rw [if_pos (by simp [hmiss])]
    rw [hd, ht, hl]
    dsimp only
    rw [if_neg (by simp [havail])]
    rw [hmiss]
    simp
  · intro hall
    unfold getSuggestedAlternatives
    cases hp : parseDateTriple d with
    | none => rfl
    | some ymd =>
      dsimp only
      have h1 : ∀ (p : SlotRec → Bool), crm.slots.filter (fun s => p s && s.isAvailable) = [] := by
        intro p
        apply List.filter_eq_nil_iff.mpr
        intro s hs
        simp [hall s hs]
      rw [h1 (fun s => leL (tripleToDate (prevDay ymd)) s.date &&
        leL s.date (tripleToDate (nextDay (nextDay (nextDay ymd)))) && s.branch == loc)]
      rw [h1 (fun s => leL (tripleToDate (prevDay ymd)) s.date &&
        leL s.date (tripleToDate (nextDay (nextDay (nextDay ymd)))))]
      simp [sortSlots]

/-- The complete details object used by the C1 amended witness. -/
def detC1 : Json :=
  Json.obj [(strL "Reason_for_Visit__c", .str (strL "Loan")),
    (strL "Appointment_Date__c", .str (strL "2025-03-10")),
    (strL "Appointment_Time__c", .str (strL "2:00 PM")),
    (strL "Location__c", .str (strL "Brooklyn")),
    (strL "Customer_Type__c", .str (strL "Regular"))]

/-- A CRM state with no slot records and one appointment occupying the
requested date+time+location. -/
def crmC1 : EnhCrm :=
  ⟨[], [Json.obj [(strL "Appointment_Date__c", .str (strL "2025-03-10")),
    (strL "Appointment_Time__c", .str (strL "2:00 PM")),
    (strL "Location__c", .str (strL "Brooklyn"))]]⟩

/-- C1 witness: a concrete conflicted booking in the enhanced variant —
nothing is created and the suggested-alternatives list is empty. -/
theorem c1_amended_witness :
    enhancedCommit crmC1 detC1 (strL "guest_user") true (strL "idE") =
      ⟨200, setField detC1 (strL "suggested_alternatives") (.arr []),
        [strL "slot_availability"], none, crmC1⟩ :=
  (c1_amended_enhanced_commit crmC1 detC1 (strL "guest_user") (strL "idE") true
    (strL "2025-03-10") (strL "2:00 PM") (strL "Brooklyn") (by rfl) (by rfl) (by rfl) (by rfl)
    (by rfl)
    ⟨Json.obj [(strL "Appointment_Date__c", .str (strL "2025-03-10")),
      (strL "Appointment_Time__c", .str (strL "2:00 PM")),
      (strL "Location__c", .str (strL "Brooklyn"))], by simp [crmC1], by rfl⟩).1

end MAA
